import Mathlib

/-!
Verification of the frequency-band importance estimator of
`physioex/explain/freq_bands_explainer.py`.

The Python code is shallowly embedded over `ℚ`:

* numpy arrays are flat row-major buffers (`List ℚ`) together with shape data;
* the torch classifier is a `Model` record: learnable parameters, buffers
  (running statistics), a train/eval flag, and a pure forward map producing
  one row of logits per sample; a forward pass updates the buffers only in
  training mode, mirroring torch module semantics;
* `scipy.signal.butter` is split into its explicit validity check on the
  normalized critical frequencies (the check scipy performs, raising
  `ValueError` for digital frequencies outside `(0, 1)`) and an abstract
  coefficient designer `FilterDesigner` standing for the numeric core of the
  Butterworth design, whose irrational coefficients are not representable
  in `ℚ`;
* `scipy.signal.sosfilt` is implemented exactly: a cascade of second-order
  sections in direct-form II transposed with zero initial state;
* fallible evaluation returns `Except PyError`; the Python global name
  lookup of the free variable `current_band` (line 67 of the source, a name
  defined nowhere in the module) is modelled by an `Option ℕ` argument:
  `none` is the state of the actual module, `some cb` models an ambient
  binding of the global.
-/

instance {ε α : Type} [DecidableEq ε] [DecidableEq α] :
    DecidableEq (Except ε α) := fun a b =>
  match a, b with
  | .ok x, .ok y =>
    if h : x = y then isTrue (congrArg Except.ok h)
    else isFalse (fun hc => h (Except.ok.inj hc))
  | .ok _, .error _ => isFalse (fun hc => Except.noConfusion hc)
  | .error _, .ok _ => isFalse (fun hc => Except.noConfusion hc)
  | .error e, .error f =>
    if h : e = f then isTrue (congrArg Except.error h)
    else isFalse (fun hc => h (Except.error.inj hc))

/-- Errors surfaced by the Python runtime while running the explainer. -/
inductive PyError where
  /-- `NameError`: a free variable is not defined in any enclosing scope. -/
  | nameError (n : String)
  /-- `IndexError`: a list subscript out of range. -/
  | indexError
  /-- The `ValueError` raised by `scipy.signal.iirfilter` when a digital
  critical frequency is outside `(0, 1)`; the spec calls it
  `InvalidBandError`. -/
  | invalidBand
  /-- Any other `ValueError` (numpy concatenate or reshape failures). -/
  | valueError (msg : String)
deriving DecidableEq

/-- One second-order section of a digital filter, with the denominator
normalized so that `a0 = 1`, as in the `sos` output of scipy. -/
structure SOSection where
  b0 : ℚ
  b1 : ℚ
  b2 : ℚ
  a1 : ℚ
  a2 : ℚ
deriving DecidableEq

/-- The numeric core of `scipy.signal.butter`: from an order and the two
normalized critical frequencies, the Butterworth band-stop coefficients in
second-order-sections form. The true coefficients are irrational, so the
designer is kept abstract; everything proved below holds for every designer. -/
structure FilterDesigner where
  design : ℕ → ℚ → ℚ → List SOSection

/-- `scipy.signal.butter(order, [low, high], btype="bandstop", output="sos")`,
with `low` and `high` already normalized by the Nyquist frequency
(source lines 69-73). scipy validates `0 < Wn < 1` and raises otherwise. -/
def butter (D : FilterDesigner) (order : ℕ) (low high : ℚ) :
    Except PyError (List SOSection) :=
  if 0 < low ∧ low < 1 ∧ 0 < high ∧ high < 1 then
    .ok (D.design order low high)
  else
    .error .invalidBand

/-- One second-order section applied in direct-form II transposed, with the
running two-component state threaded through the signal. -/
def biquad (s : SOSection) : ℚ × ℚ → List ℚ → List ℚ
  | _, [] => []
  | st, x :: xs =>
    let y := s.b0 * x + st.1
    y :: biquad s (s.b1 * x - s.a1 * y + st.2, s.b2 * x - s.a2 * y) xs

/-- `scipy.signal.sosfilt`: cascade of the second-order sections, each with
zero initial state. -/
def sosfilt (sos : List SOSection) (x : List ℚ) : List ℚ :=
  sos.foldl (fun acc s => biquad s (0, 0) acc) x

/-- Row `i` of a flat row-major buffer viewed as a matrix with rows of
width `w` (reading `inputs[index]` after `inputs.reshape(-1, w)`). -/
def getChunk (w i : ℕ) (buf : List ℚ) : List ℚ :=
  (buf.drop (i * w)).take w

/-- Overwriting row `i` of a flat row-major buffer of row width `w`
(the assignment `inputs[index] = ...`). -/
def setChunk (w i : ℕ) (buf c : List ℚ) : List ℚ :=
  buf.take (i * w) ++ c ++ buf.drop (i * w + w)

/-- The in-place filtering loop of source lines 75-76:
`for index in range(batch_size): inputs[index] = signal.sosfilt(sos, inputs[index])`
over the buffer reshaped to rows of width `w = seq_len * n_samples`. -/
def filterLoop (sos : List SOSection) (w bs : ℕ) (buf : List ℚ) : List ℚ :=
  (List.range bs).foldl (fun b i => setChunk w i b (sosfilt sos (getChunk w i b))) buf

/-- `torch.nn.functional.softmax` along the class axis, on one row of
logits. The exponential is a parameter `e`; the real `exp` is strictly
positive, which is taken as a hypothesis where it matters. -/
def softmax (e : ℚ → ℚ) (v : List ℚ) : List ℚ :=
  v.map fun x => e x / (v.map e).sum

/-- Softmax applied row-wise to a 2-dimensional array of logits
(what `F.softmax` does to a `(n, c)` tensor). -/
def softmaxRows (e : ℚ → ℚ) (rows : List (List ℚ)) : List (List ℚ) :=
  rows.map (softmax e)

/-- Elementwise difference of two 2-dimensional arrays
(`pred_proba - batch_importance`, source line 86). -/
def subRows (a b : List (List ℚ)) : List (List ℚ) :=
  List.zipWith (fun r s => List.zipWith (fun x y => x - y) r s) a b

/-- Accumulator step of `np.argmax` over one row: index and value of the
best element so far; ties keep the first occurrence, as numpy does. -/
def argmaxGo : List ℚ → ℕ → ℕ → ℚ → ℕ
  | [], _, bi, _ => bi
  | x :: xs, i, bi, bv =>
    if bv < x then argmaxGo xs (i + 1) i x else argmaxGo xs (i + 1) bi bv

/-- `np.argmax` on one row (axis `-1` of a 2-dimensional array is applied
row-wise below). -/
def argmax : List ℚ → ℕ
  | [] => 0
  | x :: xs => argmaxGo xs 1 0 x

/-- A torch classifier as used by the explainer: learnable parameters,
non-learnable buffers (e.g. batch-norm running statistics), the
train/eval flag, the logits map, and the buffer update performed by a
forward pass in training mode. -/
structure Model where
  params : List ℚ
  buffers : List ℚ
  training : Bool
  logits : List ℚ → List ℚ → List ℚ → List (List ℚ)
  bufferUpdate : List ℚ → List ℚ → List ℚ

/-- A forward pass `model(x)`: produces the logits rows and the model
after the call. Inference never touches `params`; buffers move only in
training mode. -/
def Model.forward (m : Model) (x : List ℚ) : List (List ℚ) × Model :=
  (m.logits m.params m.buffers x,
   if m.training then { m with buffers := m.bufferUpdate m.buffers x } else m)

/-- One `(inputs, y_true_batch)` pair yielded by the data loader:
the flat row-major buffer of the 4-dimensional input tensor, its shape,
and the flattened true labels. -/
structure Batch where
  inputs : List ℚ
  yTrue : List ℤ
  batchSize : ℕ
  seqLen : ℕ
  nChannels : ℕ
  nSamples : ℕ
deriving DecidableEq

/-- Source lines 61-80: reshape to `(-1, seq_len * n_samples)`, band-stop
filter each of the first `batch_size` rows in place, reshape back. The
reshapes do not move data, so the whole step is `filterLoop` on the flat
buffer. -/
def perturbedInputs (sos : List SOSection) (b : Batch) : List ℚ :=
  filterLoop sos (b.seqLen * b.nSamples) b.batchSize b.inputs

/-- `pred_proba.shape[-1]` of a 2-dimensional array given as its row list
(source line 47). -/
def nClassOf (rows : List (List ℚ)) : ℕ :=
  match rows with
  | [] => 0
  | r :: _ => r.length

/-- What one iteration of the batch loop appends to the accumulators:
the importance rows, the predicted labels, the true labels, and the
`n_class` bound in that iteration. -/
structure BatchResult where
  rows : List (List ℚ)
  preds : List ℕ
  trues : List ℤ
  k : ℕ

/-- The body of the batch loop of `compute_band_importance`
(source lines 38-87), for one batch:
baseline probabilities by softmax of the model on the unmodified batch,
predicted labels by `np.argmax`, then the read of the free variable
`current_band` (line 67, looked up in `curBand`), the band-stop design,
the per-sample filtering, the second forward pass, and the probability
difference. The model is threaded because a forward pass may update
buffers in training mode. -/
def processBatch (e : ℚ → ℚ) (D : FilterDesigner) (curBand : Option ℕ)
    (bands : List (ℚ × ℚ)) (samplingRate : ℚ) (m : Model) (b : Batch) :
    Except PyError BatchResult × Model :=
  let fwd1 := m.forward b.inputs
  let predProba := softmaxRows e fwd1.1
  let preds := predProba.map argmax
  let k := nClassOf predProba
  match curBand with
  | none => (.error (.nameError "current_band"), fwd1.2)
  | some cb =>
    match bands[cb]? with
    | none => (.error .indexError, fwd1.2)
    | some lh =>
      let nyq := samplingRate / 2
      match butter D 4 (lh.1 / nyq) (lh.2 / nyq) with
      | .error err => (.error err, fwd1.2)
      | .ok sos =>
        let fwd2 := fwd1.2.forward (perturbedInputs sos b)
        (.ok ⟨subRows predProba (softmaxRows e fwd2.1), preds, b.yTrue, k⟩, fwd2.2)

/-- The batch loop: iterate the data loader in order, accumulating one
`BatchResult` per batch; the first raised error aborts the loop, as an
uncaught Python exception does. -/
def runBatches (e : ℚ → ℚ) (D : FilterDesigner) (curBand : Option ℕ)
    (bands : List (ℚ × ℚ)) (samplingRate : ℚ) :
    Model → List Batch → Except PyError (List BatchResult) × Model
  | m, [] => (.ok [], m)
  | m, b :: rest =>
    let pr := processBatch e D curBand bands samplingRate m b
    match pr.1 with
    | .error err => (.error err, pr.2)
    | .ok r =>
      let rr := runBatches e D curBand bands samplingRate pr.2 rest
      match rr.1 with
      | .error err => (.error err, rr.2)
      | .ok rs => (.ok (r :: rs), rr.2)

/-- `reshape(-1, w)` of a flat buffer whose length the caller has checked
to be divisible by `w`: cut into rows of width `w`. -/
def toRows (w : ℕ) : List ℚ → List (List ℚ)
  | [] => []
  | x :: xs =>
    if h : w = 0 then []
    else (x :: xs).take w :: toRows w ((x :: xs).drop w)
termination_by l => l.length
decreasing_by
  simp only [List.length_drop, List.length_cons]
  omega

/-- The three flat arrays returned by `compute_band_importance`
(source line 95). -/
structure EstimatorOut where
  importance : List (List ℚ)
  yPred : List ℕ
  yTrue : List ℤ
deriving DecidableEq

/-- The module-level function `compute_band_importance` (source lines
33-95). `curBand` is the ambient binding of the free variable
`current_band`; the actual module defines no such global, which is
`curBand = none`. After the loop, `y_pred` and `y_true` are concatenated
and flattened, and the importance rows are concatenated and reshaped to
`(-1, n_class)` with `n_class` as bound by the last loop iteration;
`np.concatenate` of an empty list and an impossible reshape raise
`ValueError`. The model is returned as well so that its final state can
be talked about. -/
def compute_band_importance (e : ℚ → ℚ) (D : FilterDesigner)
    (curBand : Option ℕ) (bands : List (ℚ × ℚ)) (m : Model)
    (dataloader : List Batch) (samplingRate : ℚ) :
    Except PyError EstimatorOut × Model :=
  let rb := runBatches e D curBand bands samplingRate m dataloader
  match rb.1 with
  | .error err => (.error err, rb.2)
  | .ok results =>
    match results with
    | [] => (.error (.valueError "need at least one array to concatenate"), rb.2)
    | r0 :: rs =>
      let yPred := ((r0 :: rs).map BatchResult.preds).flatten
      let yTrue := ((r0 :: rs).map BatchResult.trues).flatten
      let k := (r0 :: rs).foldl (fun _ r => r.k) 0
      let flat := (((r0 :: rs).map BatchResult.rows).flatten).flatten
      if k ≠ 0 ∧ flat.length % k = 0 then
        (.ok ⟨toRows k flat, yPred, yTrue⟩, rb.2)
      else
        (.error (.valueError "cannot reshape"), rb.2)

/-- `self.model_call.load_from_checkpoint(...).eval()` (source line 120):
the checkpoint registry yields a model, which is put in eval mode. -/
def loadEval (ckpt : Model) : Model :=
  { ckpt with training := false }

/-- `np.column_stack([importance, y_pred, y_true])` (source line 188):
each result row is the importance row with the predicted and true label
appended as rationals. -/
def columnStack (imp : List (List ℚ)) (yPred : List ℕ) (yTrue : List ℤ) :
    List (List ℚ) :=
  List.zipWith (fun r pt => r ++ [(pt.1 : ℚ), (pt.2 : ℚ)])
    imp (yPred.zip yTrue)

/-- The file name of one box plot (source lines 161 and 185). The plot
title and data also read the free variable `current_band`
(lines 150, 156, 158), so producing the plot first requires that lookup
and the band-name subscript to succeed. -/
def plotFile (curBand : Option ℕ) (bandNames : List String) (kind : String)
    (fold : ℕ) : Except PyError String :=
  match curBand with
  | none => .error (.nameError "current_band")
  | some cb =>
    match bandNames[cb]? with
    | none => .error .indexError
    | some name =>
      .ok ("fold=" ++ toString fold ++ "_" ++ kind ++ "_band=" ++ name
        ++ "_importance.png")

/-- The method `FreqBandsExplainer.compute_band_importance`
(source lines 118-189) for one fold: load the checkpoint in eval mode,
run the module-level estimator on the dataloader of the fold, optionally
produce the two box plots, and column-stack the result. The returned
triple is the resulting table (or the first uncaught error), the final
model state, and the list of files written. -/
def explainer_compute_band_importance (e : ℚ → ℚ) (D : FilterDesigner)
    (curBand : Option ℕ) (bands : List (ℚ × ℚ)) (bandNames : List String)
    (ckpt : Model) (dataloader : List Batch) (samplingRate : ℚ) (fold : ℕ)
    (plotPred plotTrue : Bool) :
    Except PyError (List (List ℚ)) × Model × List String :=
  let run := compute_band_importance e D curBand bands (loadEval ckpt)
    dataloader samplingRate
  match run.1 with
  | .error err => (.error err, run.2, [])
  | .ok out =>
    match (if plotTrue then (plotFile curBand bandNames "true" fold).map
        (fun f => [f]) else .ok []) with
    | .error err => (.error err, run.2, [])
    | .ok fs1 =>
      match (if plotPred then (plotFile curBand bandNames "pred" fold).map
          (fun f => [f]) else .ok []) with
      | .error err => (.error err, run.2, fs1)
      | .ok fs2 =>
        (.ok (columnStack out.importance out.yPred out.yTrue), run.2,
          fs1 ++ fs2)

/-- One fold as `explain` sees it: the fold identifier, the checkpoint of
that fold, and the train dataloader built for that fold. -/
structure FoldTask where
  fold : ℕ
  ckpt : Model
  dataloader : List Batch

/-- The `Parallel(...)` dispatch of source line 195: the per-fold jobs are
independent and their results are collected in submission order; the
first raised exception surfaces to the caller. -/
def runFolds (e : ℚ → ℚ) (D : FilterDesigner) (curBand : Option ℕ)
    (bands : List (ℚ × ℚ)) (bandNames : List String) (samplingRate : ℚ)
    (plotPred plotTrue : Bool) :
    List FoldTask → Except PyError (List (List (List ℚ))) × List String
  | [] => (.ok [], [])
  | t :: rest =>
    let job := explainer_compute_band_importance e D curBand bands bandNames
      t.ckpt t.dataloader samplingRate t.fold plotPred plotTrue
    match job.1 with
    | .error err => (.error err, job.2.2)
    | .ok tbl =>
      let others := runFolds e D curBand bands bandNames samplingRate
        plotPred plotTrue rest
      match others.1 with
      | .error err => (.error err, job.2.2 ++ others.2)
      | .ok tbls => (.ok (tbl :: tbls), job.2.2 ++ others.2)

/-- A pandas data frame, reduced to what the claims need: its column
names and its rows. -/
structure DataFrame where
  columns : List String
  rows : List (List ℚ)
deriving DecidableEq

/-- The method `FreqBandsExplainer.explain` (source lines 191-217): run
every fold, then build `df = pd.DataFrame([])`. The block that would
concatenate the per-fold tables into `df` (lines 205-211) and the block
that would write `band=<band_name>_importance.csv` when `save_csv` is set
(lines 214-215) are commented out in the source, so the returned frame
stays empty and `explain` itself writes no file; the second component
collects every file written during the call. -/
def explainer_explain (e : ℚ → ℚ) (D : FilterDesigner) (curBand : Option ℕ)
    (bands : List (ℚ × ℚ)) (bandNames : List String) (folds : List FoldTask)
    (samplingRate : ℚ) (saveCsv plotPred plotTrue : Bool) :
    Except PyError DataFrame × List String :=
  let jobs := runFolds e D curBand bands bandNames samplingRate plotPred
    plotTrue folds
  match jobs.1 with
  | .error err => (.error err, jobs.2)
  | .ok _ => (.ok ⟨[], []⟩, jobs.2)

/-! ### Spec-side abbreviations used to state the claims -/

/-- The second-order sections the source designs for a band `[lo, hi]` at
sampling rate `sr` (order 4, band-stop, normalized by Nyquist). -/
def designedSOS (D : FilterDesigner) (lo hi sr : ℚ) : List SOSection :=
  D.design 4 (lo / (sr / 2)) (hi / (sr / 2))

/-- Baseline per-class probabilities of one batch: softmax of the model
logits on the unmodified inputs. -/
def baselineRows (e : ℚ → ℚ) (m : Model) (b : Batch) : List (List ℚ) :=
  softmaxRows e (m.logits m.params m.buffers b.inputs)

/-- Perturbed per-class probabilities of one batch: softmax of the model
logits on the band-stop filtered inputs. -/
def perturbedRows (e : ℚ → ℚ) (D : FilterDesigner) (lo hi sr : ℚ)
    (m : Model) (b : Batch) : List (List ℚ) :=
  softmaxRows e (m.logits m.params m.buffers
    (perturbedInputs (designedSOS D lo hi sr) b))

/-- The importance rows one batch contributes: baseline minus perturbed
probabilities, per class. -/
def impRowsOf (e : ℚ → ℚ) (D : FilterDesigner) (lo hi sr : ℚ)
    (m : Model) (b : Batch) : List (List ℚ) :=
  subRows (baselineRows e m b) (perturbedRows e D lo hi sr m b)

/-- The predicted labels one batch contributes: row-wise argmax of the
baseline probabilities. -/
def predsOf (e : ℚ → ℚ) (m : Model) (b : Batch) : List ℕ :=
  (baselineRows e m b).map argmax

/-- Whether a run of the estimator returned its arrays (as opposed to
raising). -/
def isOkResult (r : Except PyError EstimatorOut × Model) : Bool :=
  match r.1 with
  | .ok _ => true
  | .error _ => false

/-- The importance matrix of a run of the estimator, empty when the run
raised instead of returning. -/
def importanceOf (r : Except PyError EstimatorOut × Model) : List (List ℚ) :=
  match r.1 with
  | .ok o => o.importance
  | .error _ => []

/-! ### Concrete instances used by witnesses and counterexamples -/

/-- A concrete stand-in for the exponential: constant one, strictly
positive everywhere. -/
def cExp : ℚ → ℚ := fun _ => 1

/-- A concrete designer whose single section is the identity filter. -/
def cDesign : FilterDesigner := ⟨fun _ _ _ => [⟨1, 0, 0, 0, 0⟩]⟩

/-- A concrete frozen two-class model reading none of its input. -/
def cModel : Model where
  params := [1]
  buffers := [0]
  training := false
  logits := fun _ _ _ => [[1, 2]]
  bufferUpdate := fun bu _ => bu

/-- A concrete five-class model that ignores its input and always outputs
the uniform distribution, one row per element of a one-element batch. -/
def cModel5 : Model where
  params := [1]
  buffers := [0]
  training := false
  logits := fun _ _ _ => [List.replicate 5 (1 / 5)]
  bufferUpdate := fun bu _ => bu

/-- A concrete one-element batch of shape `(1, 1, 1, 2)`. -/
def cBatch : Batch where
  inputs := [1, 2]
  yTrue := [0]
  batchSize := 1
  seqLen := 1
  nChannels := 1
  nSamples := 2

/-- A second concrete one-element batch with different data. -/
def cBatch2 : Batch where
  inputs := [3, 5]
  yTrue := [1]
  batchSize := 1
  seqLen := 1
  nChannels := 1
  nSamples := 2

/-- A concrete band list with one valid band for a 100 Hz sampling rate. -/
def cBands : List (ℚ × ℚ) := [(10, 40)]

/-! ### Helper lemmas -/

theorem biquad_length (s : SOSection) :
    ∀ (st : ℚ × ℚ) (x : List ℚ), (biquad s st x).length = x.length
  | _, [] => rfl
  | st, x :: xs => by
    simp only [biquad, List.length_cons]
    rw [biquad_length s _ xs]

theorem sosfilt_length (sos : List SOSection) (x : List ℚ) :
    (sosfilt sos x).length = x.length := by
  unfold sosfilt
  induction sos generalizing x with
  | nil => rfl
  | cons s rest ih =>
    rw [List.foldl_cons, ih, biquad_length]

theorem getChunk_length (w i : ℕ) (buf : List ℚ) (h : i * w + w ≤ buf.length) :
    (getChunk w i buf).length = w := by
  simp only [getChunk, List.length_take, List.length_drop]
  omega

theorem flatten_length_uniform (w : ℕ) :
    ∀ (L : List (List ℚ)), (∀ r ∈ L, r.length = w) →
      L.flatten.length = L.length * w
  | [], _ => by simp
  | r :: L, h => by
    have hr : r.length = w := h r (List.mem_cons_self r L)
    have hL := flatten_length_uniform w L (fun s hs => h s (List.mem_cons_of_mem r hs))
    simp only [List.flatten_cons, List.length_append, hr, hL, List.length_cons]
    ring

theorem filterLoop_closed (sos : List SOSection) (w : ℕ) :
    ∀ (n : ℕ) (buf : List ℚ), n * w ≤ buf.length →
      filterLoop sos w n buf =
        ((List.range n).map (fun i => sosfilt sos (getChunk w i buf))).flatten
          ++ buf.drop (n * w) := by
  intro n
  induction n with
  | zero => intro buf _; simp [filterLoop]
  | succ n ih =>
    intro buf hlen
    have hstep : n * w ≤ buf.length :=
      le_trans (Nat.mul_le_mul_right w (Nat.le_succ n)) hlen
    have hwidth : ∀ r ∈ (List.range n).map
        (fun i => sosfilt sos (getChunk w i buf)), r.length = w := by
      intro r hr
      obtain ⟨i, hi, rfl⟩ := List.mem_map.mp hr
      have hi2 : i < n := List.mem_range.mp hi
      have h1 : (i + 1) * w ≤ n * w := Nat.mul_le_mul_right w hi2
      rw [Nat.succ_mul] at h1
      exact (sosfilt_length sos _).trans
        (getChunk_length w i buf (le_trans h1 hstep))
    have hplen : (((List.range n).map
        (fun i => sosfilt sos (getChunk w i buf))).flatten).length = n * w := by
      rw [flatten_length_uniform w _ hwidth, List.length_map, List.length_range]
    have hloop : filterLoop sos w (n + 1) buf =
        setChunk w n (filterLoop sos w n buf)
          (sosfilt sos (getChunk w n (filterLoop sos w n buf))) := by
      unfold filterLoop
      rw [List.range_succ, List.foldl_append]
      rfl
    rw [hloop, ih buf hstep]
    set P := ((List.range n).map (fun i => sosfilt sos (getChunk w i buf))).flatten
      with hP
    have hdropP : (P ++ buf.drop (n * w)).drop (n * w) = buf.drop (n * w) :=
      List.drop_left' hplen
    have htakeP : (P ++ buf.drop (n * w)).take (n * w) = P :=
      List.take_left' hplen
    have hchunk : getChunk w n (P ++ buf.drop (n * w)) = getChunk w n buf := by
      simp only [getChunk, hdropP]
    rw [hchunk]
    simp only [setChunk, htakeP]
    have hdrop2 : (P ++ buf.drop (n * w)).drop (n * w + w) = buf.drop ((n + 1) * w) := by
      rw [← List.drop_drop, hdropP, List.drop_drop, Nat.succ_mul]
    rw [hdrop2, List.range_succ, List.map_append, List.flatten_append]
    simp [List.append_assoc]

theorem toRows_flatten_uniform (w : ℕ) (hw : 0 < w) :
    ∀ (L : List (List ℚ)), (∀ r ∈ L, r.length = w) → toRows w L.flatten = L
  | [], _ => by simp [toRows]
  | r :: L, h => by
    have hr : r.length = w := h r (List.mem_cons_self r L)
    have hrne : r ≠ [] := by
      intro hnil
      rw [hnil] at hr
      simp at hr
      omega
    obtain ⟨y, ys, rfl⟩ := List.exists_cons_of_ne_nil hrne
    have hflat : ((y :: ys) :: L).flatten = y :: (ys ++ L.flatten) := rfl
    rw [hflat, toRows]
    have hwne : ¬ w = 0 := by omega
    rw [dif_neg hwne]
    have hcons : y :: (ys ++ L.flatten) = (y :: ys) ++ L.flatten := rfl
    have htake : (y :: (ys ++ L.flatten)).take w = y :: ys := by
      rw [hcons, ← hr]
      exact List.take_left _ _
    have hdrop : (y :: (ys ++ L.flatten)).drop w = L.flatten := by
      rw [hcons, ← hr]
      exact List.drop_left _ _
    rw [htake, hdrop,
      toRows_flatten_uniform w hw L (fun s hs => h s (List.mem_cons_of_mem _ hs))]

theorem getChunk_flatten_uniform (w : ℕ) :
    ∀ (L : List (List ℚ)) (i : ℕ), (∀ r ∈ L, r.length = w) →
      (hi : i < L.length) → getChunk w i L.flatten = L[i]
  | [], i, _, hi => absurd hi (by simp)
  | r :: L, 0, hw, _ => by
    have hr : r.length = w := hw r (List.mem_cons_self r L)
    simp only [getChunk, Nat.zero_mul, List.drop_zero, List.flatten_cons,
      List.getElem_cons_zero]
    exact List.take_left' hr
  | r :: L, i + 1, hw, hi => by
    have hr : r.length = w := hw r (List.mem_cons_self r L)
    have hi2 : i < L.length := by simpa using hi
    have hdrop : ((r :: L).flatten).drop ((i + 1) * w) = L.flatten.drop (i * w) := by
      simp only [List.flatten_cons]
      rw [Nat.succ_mul, Nat.add_comm (i * w) w, ← List.drop_drop]
      congr 1
      exact List.drop_left' hr
    simp only [getChunk] at *
    rw [hdrop, List.getElem_cons_succ]
    exact getChunk_flatten_uniform w L i
      (fun s hs => hw s (List.mem_cons_of_mem r hs)) hi2

theorem softmax_length (e : ℚ → ℚ) (v : List ℚ) :
    (softmax e v).length = v.length := by
  simp [softmax]

theorem sum_map_div (S : ℚ) :
    ∀ (l : List ℚ), (l.map (fun x => x / S)).sum = l.sum / S
  | [] => by simp
  | x :: l => by
    simp only [List.map_cons, List.sum_cons, sum_map_div S l, add_div]

theorem softmax_sum (e : ℚ → ℚ) (v : List ℚ) (he : ∀ x, 0 < e x)
    (hv : v ≠ []) : (softmax e v).sum = 1 := by
  have hS : 0 < (v.map e).sum := by
    apply List.sum_pos
    · intro x hx
      obtain ⟨y, _, rfl⟩ := List.mem_map.mp hx
      exact he y
    · simpa using hv
  have : softmax e v = (v.map e).map (fun x => x / (v.map e).sum) := by
    simp [softmax, List.map_map]
  rw [this, sum_map_div, div_self (ne_of_gt hS)]

theorem softmax_mem_bounds (e : ℚ → ℚ) (v : List ℚ) (a : ℚ)
    (he : ∀ x, 0 < e x) (ha : a ∈ softmax e v) : 0 < a ∧ a ≤ 1 := by
  obtain ⟨x, hx, rfl⟩ := List.mem_map.mp ha
  have hS : 0 < (v.map e).sum := by
    apply List.sum_pos
    · intro y hy
      obtain ⟨z, _, rfl⟩ := List.mem_map.mp hy
      exact he z
    · intro hnil
      rw [List.map_eq_nil_iff.mp hnil] at hx
      simp at hx
  constructor
  · exact div_pos (he x) hS
  · rw [div_le_one hS]
    apply List.single_le_sum
    · intro y hy
      obtain ⟨z, _, rfl⟩ := List.mem_map.mp hy
      exact le_of_lt (he z)
    · exact List.mem_map_of_mem e hx

theorem mem_zipWith {α β γ : Type} {f : α → β → γ} :
    ∀ {l1 : List α} {l2 : List β} {a : γ},
      a ∈ List.zipWith f l1 l2 → ∃ x ∈ l1, ∃ y ∈ l2, a = f x y
  | [], _, a, h => by simp at h
  | _ :: _, [], a, h => by simp at h
  | x :: l1, y :: l2, a, h => by
    rw [List.zipWith_cons_cons, List.mem_cons] at h
    rcases h with h | h
    · exact ⟨x, List.mem_cons_self x l1, y, List.mem_cons_self y l2, h⟩
    · obtain ⟨x2, hx2, y2, hy2, rfl⟩ := mem_zipWith h
      exact ⟨x2, List.mem_cons_of_mem x hx2, y2, List.mem_cons_of_mem y hy2, rfl⟩

theorem sum_zipWith_sub :
    ∀ (p q : List ℚ), p.length = q.length →
      (List.zipWith (fun x y => x - y) p q).sum = p.sum - q.sum
  | [], [], _ => by simp
  | [], _ :: _, h => by simp at h
  | _ :: _, [], h => by simp at h
  | x :: p, y :: q, h => by
    have hrec := sum_zipWith_sub p q (by simpa using h)
    rw [List.zipWith_cons_cons, List.sum_cons, List.sum_cons, List.sum_cons, hrec]
    ring

theorem forward_snd_eval (m : Model) (x : List ℚ) (hm : m.training = false) :
    (m.forward x).2 = m := by
  simp [Model.forward, hm]

theorem forward_snd_params (m : Model) (x : List ℚ) :
    (m.forward x).2.params = m.params := by
  unfold Model.forward
  cases h : m.training <;> simp [h]

theorem processBatch_snd_eval (e : ℚ → ℚ) (D : FilterDesigner)
    (curBand : Option ℕ) (bands : List (ℚ × ℚ)) (sr : ℚ) (m : Model)
    (b : Batch) (hm : m.training = false) :
    (processBatch e D curBand bands sr m b).2 = m := by
  have hf : ∀ x, (m.forward x).2 = m := fun x => forward_snd_eval m x hm
  unfold processBatch
  cases curBand with
  | none => simp [hf]
  | some cb =>
    cases hbc : bands[cb]? with
    | none => simp [hbc, hf]
    | some lh =>
      simp only [hbc]
      cases hbut : butter D 4 (lh.1 / (sr / 2)) (lh.2 / (sr / 2)) with
      | error err => simp [hbut, hf]
      | ok sos => simp [hbut, hf]

theorem processBatch_snd_params (e : ℚ → ℚ) (D : FilterDesigner)
    (curBand : Option ℕ) (bands : List (ℚ × ℚ)) (sr : ℚ) (m : Model)
    (b : Batch) :
    (processBatch e D curBand bands sr m b).2.params = m.params := by
  unfold processBatch
  cases curBand with
  | none => simp [forward_snd_params]
  | some cb =>
    cases hbc : bands[cb]? with
    | none => simp [hbc, forward_snd_params]
    | some lh =>
      simp only [hbc]
      cases hbut : butter D 4 (lh.1 / (sr / 2)) (lh.2 / (sr / 2)) with
      | error err => simp [hbut, forward_snd_params]
      | ok sos => simp [hbut, forward_snd_params]

theorem runBatches_snd_eval (e : ℚ → ℚ) (D : FilterDesigner)
    (curBand : Option ℕ) (bands : List (ℚ × ℚ)) (sr : ℚ) :
    ∀ (loader : List Batch) (m : Model), m.training = false →
      (runBatches e D curBand bands sr m loader).2 = m
  | [], _, _ => rfl
  | b :: rest, m, hm => by
    have hpm : (processBatch e D curBand bands sr m b).2 = m :=
      processBatch_snd_eval e D curBand bands sr m b hm
    have hrm : (runBatches e D curBand bands sr m rest).2 = m :=
      runBatches_snd_eval e D curBand bands sr rest m hm
    unfold runBatches
    simp only
    rw [hpm]
    cases hres : (processBatch e D curBand bands sr m b).1 with
    | error err => rfl
    | ok r =>
      simp only
      rw [hrm]
      cases hres2 : (runBatches e D curBand bands sr m rest).1 with
      | error err => rfl
      | ok rs => rfl

theorem runBatches_snd_params (e : ℚ → ℚ) (D : FilterDesigner)
    (curBand : Option ℕ) (bands : List (ℚ × ℚ)) (sr : ℚ) :
    ∀ (loader : List Batch) (m : Model),
      (runBatches e D curBand bands sr m loader).2.params = m.params
  | [], _ => rfl
  | b :: rest, m => by
    have hpm : (processBatch e D curBand bands sr m b).2.params = m.params :=
      processBatch_snd_params e D curBand bands sr m b
    have hrm := runBatches_snd_params e D curBand bands sr rest
      (processBatch e D curBand bands sr m b).2
    unfold runBatches
    simp only
    cases hres : (processBatch e D curBand bands sr m b).1 with
    | error err => exact hpm
    | ok r =>
      simp only
      cases hres2 : (runBatches e D curBand bands sr
          (processBatch e D curBand bands sr m b).2 rest).1 with
      | error err => exact hrm.trans hpm
      | ok rs => exact hrm.trans hpm

theorem compute_band_importance_snd_eval (e : ℚ → ℚ) (D : FilterDesigner)
    (curBand : Option ℕ) (bands : List (ℚ × ℚ)) (m : Model)
    (loader : List Batch) (sr : ℚ) (hm : m.training = false) :
    (compute_band_importance e D curBand bands m loader sr).2 = m := by
  unfold compute_band_importance
  simp only
  rw [runBatches_snd_eval e D curBand bands sr loader m hm]
  cases hres : (runBatches e D curBand bands sr m loader).1 with
  | error err => rfl
  | ok results =>
    cases results with
    | nil => rfl
    | cons r0 rs =>
      simp only
      split <;> rfl

theorem compute_band_importance_snd_params (e : ℚ → ℚ) (D : FilterDesigner)
    (curBand : Option ℕ) (bands : List (ℚ × ℚ)) (m : Model)
    (loader : List Batch) (sr : ℚ) :
    (compute_band_importance e D curBand bands m loader sr).2.params =
      m.params := by
  unfold compute_band_importance
  simp only
  have hrm : (runBatches e D curBand bands sr m loader).2.params = m.params :=
    runBatches_snd_params e D curBand bands sr loader m
  cases hres : (runBatches e D curBand bands sr m loader).1 with
  | error err => exact hrm
  | ok results =>
    cases results with
    | nil => exact hrm
    | cons r0 rs =>
      simp only
      split <;> exact hrm

theorem processBatch_ok (e : ℚ → ℚ) (D : FilterDesigner) (cb : ℕ)
    (bands : List (ℚ × ℚ)) (sr lo hi : ℚ) (m : Model) (b : Batch)
    (hm : m.training = false) (hb : bands[cb]? = some (lo, hi))
    (h1 : 0 < lo / (sr / 2)) (h2 : lo / (sr / 2) < 1)
    (h3 : 0 < hi / (sr / 2)) (h4 : hi / (sr / 2) < 1) :
    processBatch e D (some cb) bands sr m b =
      (.ok ⟨impRowsOf e D lo hi sr m b, predsOf e m b, b.yTrue,
        nClassOf (baselineRows e m b)⟩, m) := by
  have hbut : butter D 4 (lo / (sr / 2)) (hi / (sr / 2)) =
      .ok (designedSOS D lo hi sr) := by
    unfold butter designedSOS
    rw [if_pos ⟨h1, h2, h3, h4⟩]
  have hf : ∀ x, (m.forward x).2 = m := fun x => forward_snd_eval m x hm
  have hffst : ∀ x, (m.forward x).1 = m.logits m.params m.buffers x :=
    fun _ => rfl
  unfold processBatch
  simp only [hb, hbut, hf, hffst]
  unfold impRowsOf baselineRows perturbedRows predsOf
  rfl

theorem runBatches_ok (e : ℚ → ℚ) (D : FilterDesigner) (cb : ℕ)
    (bands : List (ℚ × ℚ)) (sr lo hi : ℚ) (m : Model)
    (hm : m.training = false) (hb : bands[cb]? = some (lo, hi))
    (h1 : 0 < lo / (sr / 2)) (h2 : lo / (sr / 2) < 1)
    (h3 : 0 < hi / (sr / 2)) (h4 : hi / (sr / 2) < 1) :
    ∀ (loader : List Batch),
      runBatches e D (some cb) bands sr m loader =
        (.ok (loader.map (fun b =>
          (⟨impRowsOf e D lo hi sr m b, predsOf e m b, b.yTrue,
            nClassOf (baselineRows e m b)⟩ : BatchResult))), m)
  | [] => by simp [runBatches]
  | b :: rest => by
    unfold runBatches
    simp only
    rw [processBatch_ok e D cb bands sr lo hi m b hm hb h1 h2 h3 h4,
      runBatches_ok e D cb bands sr lo hi m hm hb h1 h2 h3 h4 rest]
    simp

theorem foldl_k_uniform (K : ℕ) :
    ∀ (l : List BatchResult) (z : ℕ), l ≠ [] → (∀ r ∈ l, r.k = K) →
      l.foldl (fun _ r => r.k) z = K
  | [], _, hne, _ => absurd rfl hne
  | [r], _, _, h => by
    simp [List.foldl_cons, h r (List.mem_cons_self r [])]
  | r :: s :: t, z, _, h => by
    rw [List.foldl_cons]
    exact foldl_k_uniform K (s :: t) r.k (by simp)
      (fun x hx => h x (List.mem_cons_of_mem r hx))

theorem nClassOf_softmaxRows (e : ℚ → ℚ) (rows : List (List ℚ)) (K : ℕ)
    (hne : rows ≠ []) (hw : ∀ r ∈ rows, r.length = K) :
    nClassOf (softmaxRows e rows) = K := by
  obtain ⟨r, rest, rfl⟩ := List.exists_cons_of_ne_nil hne
  simp only [softmaxRows, List.map_cons, nClassOf, softmax_length]
  exact hw r (List.mem_cons_self r rest)

theorem logits_ne_nil (rows : List (List ℚ)) (t : List ℤ)
    (hc : rows.length = t.length) (ht : t ≠ []) : rows ≠ [] := by
  intro hnil
  rw [hnil] at hc
  exact ht (List.eq_nil_of_length_eq_zero hc.symm)

theorem impRowsOf_widths (e : ℚ → ℚ) (D : FilterDesigner) (lo hi sr : ℚ)
    (m : Model) (b : Batch) (K : ℕ)
    (hw1 : ∀ r ∈ m.logits m.params m.buffers b.inputs, r.length = K)
    (hw2 : ∀ r ∈ m.logits m.params m.buffers
      (perturbedInputs (designedSOS D lo hi sr) b), r.length = K) :
    ∀ row ∈ impRowsOf e D lo hi sr m b, row.length = K := by
  intro row hrow
  unfold impRowsOf subRows at hrow
  obtain ⟨p, hp, q, hq, rfl⟩ := mem_zipWith hrow
  unfold baselineRows softmaxRows at hp
  obtain ⟨r1, hr1, rfl⟩ := List.mem_map.mp hp
  unfold perturbedRows softmaxRows at hq
  obtain ⟨r2, hr2, rfl⟩ := List.mem_map.mp hq
  rw [List.length_zipWith, softmax_length, softmax_length, hw1 r1 hr1,
    hw2 r2 hr2, min_self]

theorem impRowsOf_length (e : ℚ → ℚ) (D : FilterDesigner) (lo hi sr : ℚ)
    (m : Model) (b : Batch)
    (hc1 : (m.logits m.params m.buffers b.inputs).length = b.yTrue.length)
    (hc2 : (m.logits m.params m.buffers
      (perturbedInputs (designedSOS D lo hi sr) b)).length = b.yTrue.length) :
    (impRowsOf e D lo hi sr m b).length = b.yTrue.length := by
  unfold impRowsOf subRows baselineRows perturbedRows softmaxRows
  rw [List.length_zipWith, List.length_map, List.length_map, hc1, hc2,
    min_self]

theorem predsOf_length (e : ℚ → ℚ) (m : Model) (b : Batch)
    (hc1 : (m.logits m.params m.buffers b.inputs).length = b.yTrue.length) :
    (predsOf e m b).length = b.yTrue.length := by
  unfold predsOf baselineRows softmaxRows
  rw [List.length_map, List.length_map, hc1]

theorem cbi_assemble (e : ℚ → ℚ) (D : FilterDesigner) (cb : ℕ)
    (bands : List (ℚ × ℚ)) (m : Model) (loader : List Batch) (sr : ℚ)
    (R : List BatchResult) (K : ℕ)
    (hrw : runBatches e D (some cb) bands sr m loader = (.ok R, m))
    (hRne : R ≠ []) (hK : 0 < K)
    (hkmem : ∀ r ∈ R, r.k = K)
    (hWidths : ∀ row ∈ (R.map BatchResult.rows).flatten, row.length = K) :
    compute_band_importance e D (some cb) bands m loader sr =
      (.ok ⟨(R.map BatchResult.rows).flatten,
            (R.map BatchResult.preds).flatten,
            (R.map BatchResult.trues).flatten⟩, m) := by
  obtain ⟨r0, rs, rfl⟩ := List.exists_cons_of_ne_nil hRne
  unfold compute_band_importance
  simp only
  rw [hrw]
  simp only
  rw [foldl_k_uniform K (r0 :: rs) 0 (by simp) hkmem]
  have hlen : ((((r0 :: rs).map BatchResult.rows).flatten).flatten).length =
      (((r0 :: rs).map BatchResult.rows).flatten).length * K :=
    flatten_length_uniform K _ hWidths
  rw [if_pos ⟨Nat.pos_iff_ne_zero.mp hK,
    by rw [hlen]; exact Nat.mul_mod_left _ K⟩]
  rw [toRows_flatten_uniform K hK _ hWidths]

/-- The success path of `compute_band_importance`: with the global
`current_band` bound to a valid index, a valid band, an eval-mode model
whose logits form a proper `(n, K)` tensor on every batch of a non-empty
loader, the function returns the concatenations, in loader order, of the
per-batch importance rows, predicted labels and true labels, and leaves
the model untouched. -/
theorem compute_band_importance_ok (e : ℚ → ℚ) (D : FilterDesigner) (cb : ℕ)
    (bands : List (ℚ × ℚ)) (m : Model) (loader : List Batch)
    (sr lo hi : ℚ) (K : ℕ)
    (hm : m.training = false) (hb : bands[cb]? = some (lo, hi))
    (h1 : 0 < lo / (sr / 2)) (h2 : lo / (sr / 2) < 1)
    (h3 : 0 < hi / (sr / 2)) (h4 : hi / (sr / 2) < 1)
    (hne : loader ≠ []) (hK : 0 < K)
    (hc1 : ∀ b ∈ loader,
      (m.logits m.params m.buffers b.inputs).length = b.yTrue.length)
    (hc2 : ∀ b ∈ loader,
      (m.logits m.params m.buffers
        (perturbedInputs (designedSOS D lo hi sr) b)).length = b.yTrue.length)
    (hw1 : ∀ b ∈ loader,
      ∀ r ∈ m.logits m.params m.buffers b.inputs, r.length = K)
    (hw2 : ∀ b ∈ loader,
      ∀ r ∈ m.logits m.params m.buffers
        (perturbedInputs (designedSOS D lo hi sr) b), r.length = K)
    (hnb : ∀ b ∈ loader, b.yTrue ≠ []) :
    compute_band_importance e D (some cb) bands m loader sr =
      (.ok ⟨(loader.map (impRowsOf e D lo hi sr m)).flatten,
            (loader.map (predsOf e m)).flatten,
            (loader.map Batch.yTrue).flatten⟩, m) := by
  have hrows : (loader.map (fun b =>
      (⟨impRowsOf e D lo hi sr m b, predsOf e m b, b.yTrue,
        nClassOf (baselineRows e m b)⟩ : BatchResult))).map BatchResult.rows =
      loader.map (impRowsOf e D lo hi sr m) := by
    rw [List.map_map]
    rfl
  have hpreds : (loader.map (fun b =>
      (⟨impRowsOf e D lo hi sr m b, predsOf e m b, b.yTrue,
        nClassOf (baselineRows e m b)⟩ : BatchResult))).map BatchResult.preds =
      loader.map (predsOf e m) := by
    rw [List.map_map]
    rfl
  have htrues : (loader.map (fun b =>
      (⟨impRowsOf e D lo hi sr m b, predsOf e m b, b.yTrue,
        nClassOf (baselineRows e m b)⟩ : BatchResult))).map BatchResult.trues =
      loader.map Batch.yTrue := by
    rw [List.map_map]
    rfl
  have hmain := cbi_assemble e D cb bands m loader sr
    (loader.map (fun b =>
      (⟨impRowsOf e D lo hi sr m b, predsOf e m b, b.yTrue,
        nClassOf (baselineRows e m b)⟩ : BatchResult))) K
    (runBatches_ok e D cb bands sr lo hi m hm hb h1 h2 h3 h4 loader)
    (by simpa using hne) hK
    (by
      intro r hr
      obtain ⟨b, hbm, rfl⟩ := List.mem_map.mp hr
      exact nClassOf_softmaxRows e _ K
        (logits_ne_nil _ _ (hc1 b hbm) (hnb b hbm)) (hw1 b hbm))
    (by
      rw [hrows]
      intro row hrow
      rw [List.mem_flatten] at hrow
      obtain ⟨rl, hrl, hrow2⟩ := hrow
      obtain ⟨b, hbm, rfl⟩ := List.mem_map.mp hrl
      exact impRowsOf_widths e D lo hi sr m b K (hw1 b hbm) (hw2 b hbm)
        row hrow2)
  rw [hmain, hrows, hpreds, htrues]

/-! ### Claim theorems -/

/-- C3: `compute_band_importance` reads the free variable `current_band`
(source line 67), which is defined nowhere in the module and is not among
its parameters, to select the band from its `bands` argument; consequently
every call with a non-empty batch stream fails with an undefined-name
error before any importance array is returned. The unbound module state is
`curBand = none`, and the failure is `NameError: current_band`, raised in
the first loop iteration after the baseline forward pass. -/
theorem c3_reads_undefined_current_band (e : ℚ → ℚ) (D : FilterDesigner)
    (bands : List (ℚ × ℚ)) (m : Model) (loader : List Batch) (sr : ℚ)
    (hne : loader ≠ []) :
    (compute_band_importance e D none bands m loader sr).1 =
      .error (.nameError "current_band") := by
  obtain ⟨b, rest, rfl⟩ := List.exists_cons_of_ne_nil hne
  rfl

/-- Witness for C3 at a concrete classifier, band list and one-batch
stream. -/
theorem c3_reads_undefined_current_band_witness :
    ([cBatch] : List Batch) ≠ [] ∧
    (compute_band_importance cExp cDesign none cBands cModel [cBatch] 100).1 =
      .error (.nameError "current_band") :=
  ⟨by with_unfolding_all decide,
   c3_reads_undefined_current_band cExp cDesign cBands cModel [cBatch] 100
     (by with_unfolding_all decide)⟩

/-- C1 counterexample: on a concrete one-batch stream, run in the actual
module state where `current_band` is unbound, `compute_band_importance`
raises `NameError` instead of returning the three aligned arrays, so the
claim as stated is false on the code. -/
theorem c1_counterexample :
    isOkResult (compute_band_importance cExp cDesign none cBands cModel
      [cBatch] 100) = false ∧
    (compute_band_importance cExp cDesign none cBands cModel [cBatch] 100).1 =
      .error (.nameError "current_band") :=
  ⟨by with_unfolding_all decide, by with_unfolding_all decide⟩

/-- C1 (amended): provided the ambient variable `current_band` is bound to
an index `cb` selecting a valid band of `bands`, the model is frozen in
eval mode, the stream is non-empty, and on every batch the classifier
emits one logits row of width `K > 0` per batch element on both the
original and the filtered inputs, `compute_band_importance` returns three
aligned flat arrays: the importance matrix, the predicted-label array and
the true-label array are the in-order concatenations of the per-batch
contributions, and each has length `N`, the total number of samples
across all batches. Position `i` of each array therefore corresponds to
the same original sample in data-loader iteration order. -/
theorem c1_aligned_output_lengths (e : ℚ → ℚ) (D : FilterDesigner) (cb : ℕ)
    (bands : List (ℚ × ℚ)) (m : Model) (loader : List Batch)
    (sr lo hi : ℚ) (K : ℕ)
    (hm : m.training = false) (hb : bands[cb]? = some (lo, hi))
    (h1 : 0 < lo / (sr / 2)) (h2 : lo / (sr / 2) < 1)
    (h3 : 0 < hi / (sr / 2)) (h4 : hi / (sr / 2) < 1)
    (hne : loader ≠ []) (hK : 0 < K)
    (hc1 : ∀ b ∈ loader,
      (m.logits m.params m.buffers b.inputs).length = b.yTrue.length)
    (hc2 : ∀ b ∈ loader,
      (m.logits m.params m.buffers
        (perturbedInputs (designedSOS D lo hi sr) b)).length = b.yTrue.length)
    (hw1 : ∀ b ∈ loader,
      ∀ r ∈ m.logits m.params m.buffers b.inputs, r.length = K)
    (hw2 : ∀ b ∈ loader,
      ∀ r ∈ m.logits m.params m.buffers
        (perturbedInputs (designedSOS D lo hi sr) b), r.length = K)
    (hnb : ∀ b ∈ loader, b.yTrue ≠ []) :
    (compute_band_importance e D (some cb) bands m loader sr).1 =
      .ok ⟨(loader.map (impRowsOf e D lo hi sr m)).flatten,
           (loader.map (predsOf e m)).flatten,
           (loader.map Batch.yTrue).flatten⟩ ∧
    ((loader.map (impRowsOf e D lo hi sr m)).flatten).length =
      (loader.map (fun b => b.yTrue.length)).sum ∧
    ((loader.map (predsOf e m)).flatten).length =
      (loader.map (fun b => b.yTrue.length)).sum ∧
    ((loader.map Batch.yTrue).flatten).length =
      (loader.map (fun b => b.yTrue.length)).sum := by
  refine ⟨?_, ?_, ?_, ?_⟩
  · rw [compute_band_importance_ok e D cb bands m loader sr lo hi K hm hb
      h1 h2 h3 h4 hne hK hc1 hc2 hw1 hw2 hnb]
  · rw [List.length_flatten, List.map_map]
    congr 1
    apply List.map_congr_left
    intro b hbm
    exact impRowsOf_length e D lo hi sr m b (hc1 b hbm) (hc2 b hbm)
  · rw [List.length_flatten, List.map_map]
    congr 1
    apply List.map_congr_left
    intro b hbm
    exact predsOf_length e m b (hc1 b hbm)
  · rw [List.length_flatten, List.map_map]
    rfl

/-- Witness for C1 (amended): every hypothesis holds at the concrete
instance and the aligned arrays are produced. -/
theorem c1_aligned_output_lengths_witness :
    cModel.training = false ∧
    cBands[0]? = some (10, 40) ∧
    (0 : ℚ) < 10 / (100 / 2) ∧ (10 : ℚ) / (100 / 2) < 1 ∧
    (0 : ℚ) < 40 / (100 / 2) ∧ (40 : ℚ) / (100 / 2) < 1 ∧
    ([cBatch] : List Batch) ≠ [] ∧ 0 < 2 ∧
    (∀ b ∈ [cBatch],
      (cModel.logits cModel.params cModel.buffers b.inputs).length =
        b.yTrue.length) ∧
    (∀ b ∈ [cBatch],
      (cModel.logits cModel.params cModel.buffers
        (perturbedInputs (designedSOS cDesign 10 40 100) b)).length =
          b.yTrue.length) ∧
    (∀ b ∈ [cBatch],
      ∀ r ∈ cModel.logits cModel.params cModel.buffers b.inputs,
        r.length = 2) ∧
    (∀ b ∈ [cBatch],
      ∀ r ∈ cModel.logits cModel.params cModel.buffers
        (perturbedInputs (designedSOS cDesign 10 40 100) b), r.length = 2) ∧
    (∀ b ∈ [cBatch], b.yTrue ≠ []) ∧
    ((compute_band_importance cExp cDesign (some 0) cBands cModel
        [cBatch] 100).1 =
      .ok ⟨([cBatch].map (impRowsOf cExp cDesign 10 40 100 cModel)).flatten,
           ([cBatch].map (predsOf cExp cModel)).flatten,
           ([cBatch].map Batch.yTrue).flatten⟩ ∧
    (([cBatch].map (impRowsOf cExp cDesign 10 40 100 cModel)).flatten).length =
      ([cBatch].map (fun b => b.yTrue.length)).sum ∧
    (([cBatch].map (predsOf cExp cModel)).flatten).length =
      ([cBatch].map (fun b => b.yTrue.length)).sum ∧
    (([cBatch].map Batch.yTrue).flatten).length =
      ([cBatch].map (fun b => b.yTrue.length)).sum) :=
  ⟨by with_unfolding_all decide, by with_unfolding_all decide,
   by with_unfolding_all decide, by with_unfolding_all decide,
   by with_unfolding_all decide, by with_unfolding_all decide,
   by with_unfolding_all decide, by with_unfolding_all decide,
   by with_unfolding_all decide, by with_unfolding_all decide,
   by with_unfolding_all decide, by with_unfolding_all decide,
   by with_unfolding_all decide,
   c1_aligned_output_lengths cExp cDesign 0 cBands cModel [cBatch] 100
     10 40 2
     (by with_unfolding_all decide) (by with_unfolding_all decide)
     (by with_unfolding_all decide) (by with_unfolding_all decide)
     (by with_unfolding_all decide) (by with_unfolding_all decide)
     (by with_unfolding_all decide) (by with_unfolding_all decide)
     (by with_unfolding_all decide) (by with_unfolding_all decide)
     (by with_unfolding_all decide) (by with_unfolding_all decide)
     (by with_unfolding_all decide)⟩

/-- C2 counterexample: on a concrete batch, run in the actual module state
where `current_band` is unbound, no baseline-minus-perturbed importance
vector and no predicted label is ever computed: the call raises
`NameError` instead. -/
theorem c2_counterexample :
    isOkResult (compute_band_importance cExp cDesign none cBands cModel
      [cBatch2] 100) = false ∧
    (compute_band_importance cExp cDesign none cBands cModel [cBatch2] 100).1 =
      .error (.nameError "current_band") :=
  ⟨by with_unfolding_all decide, by with_unfolding_all decide⟩

/-- C2 (amended): provided the ambient variable `current_band` is bound to
an index selecting a valid band, for every batch
`compute_band_importance` contributes, in loader order, importance rows
equal to the baseline per-class probabilities (softmax of the classifier
on the unmodified batch) minus the perturbed per-class probabilities
(softmax of the classifier on the band-filtered batch), elementwise per
class, and predicted labels equal to the row-wise argmax of the baseline
probabilities. -/
theorem c2_importance_is_probability_delta (e : ℚ → ℚ) (D : FilterDesigner)
    (cb : ℕ) (bands : List (ℚ × ℚ)) (m : Model) (loader : List Batch)
    (sr lo hi : ℚ) (K : ℕ)
    (hm : m.training = false) (hb : bands[cb]? = some (lo, hi))
    (h1 : 0 < lo / (sr / 2)) (h2 : lo / (sr / 2) < 1)
    (h3 : 0 < hi / (sr / 2)) (h4 : hi / (sr / 2) < 1)
    (hne : loader ≠ []) (hK : 0 < K)
    (hc1 : ∀ b ∈ loader,
      (m.logits m.params m.buffers b.inputs).length = b.yTrue.length)
    (hc2 : ∀ b ∈ loader,
      (m.logits m.params m.buffers
        (perturbedInputs (designedSOS D lo hi sr) b)).length = b.yTrue.length)
    (hw1 : ∀ b ∈ loader,
      ∀ r ∈ m.logits m.params m.buffers b.inputs, r.length = K)
    (hw2 : ∀ b ∈ loader,
      ∀ r ∈ m.logits m.params m.buffers
        (perturbedInputs (designedSOS D lo hi sr) b), r.length = K)
    (hnb : ∀ b ∈ loader, b.yTrue ≠ []) :
    (compute_band_importance e D (some cb) bands m loader sr).1 =
      .ok ⟨(loader.map (fun b =>
          subRows (softmaxRows e (m.logits m.params m.buffers b.inputs))
            (softmaxRows e (m.logits m.params m.buffers
              (perturbedInputs (designedSOS D lo hi sr) b))))).flatten,
        (loader.map (fun b =>
          (softmaxRows e (m.logits m.params m.buffers b.inputs)).map
            argmax)).flatten,
        (loader.map Batch.yTrue).flatten⟩ := by
  rw [compute_band_importance_ok e D cb bands m loader sr lo hi K hm hb
    h1 h2 h3 h4 hne hK hc1 hc2 hw1 hw2 hnb]
  rfl

/-- Witness for C2 (amended) at the concrete instance. -/
theorem c2_importance_is_probability_delta_witness :
    cModel.training = false ∧
    cBands[0]? = some (10, 40) ∧
    (0 : ℚ) < 10 / (100 / 2) ∧ (10 : ℚ) / (100 / 2) < 1 ∧
    (0 : ℚ) < 40 / (100 / 2) ∧ (40 : ℚ) / (100 / 2) < 1 ∧
    ([cBatch] : List Batch) ≠ [] ∧ 0 < 2 ∧
    (∀ b ∈ [cBatch],
      (cModel.logits cModel.params cModel.buffers b.inputs).length =
        b.yTrue.length) ∧
    (∀ b ∈ [cBatch],
      (cModel.logits cModel.params cModel.buffers
        (perturbedInputs (designedSOS cDesign 10 40 100) b)).length =
          b.yTrue.length) ∧
    (∀ b ∈ [cBatch],
      ∀ r ∈ cModel.logits cModel.params cModel.buffers b.inputs,
        r.length = 2) ∧
    (∀ b ∈ [cBatch],
      ∀ r ∈ cModel.logits cModel.params cModel.buffers
        (perturbedInputs (designedSOS cDesign 10 40 100) b), r.length = 2) ∧
    (∀ b ∈ [cBatch], b.yTrue ≠ []) ∧
    (compute_band_importance cExp cDesign (some 0) cBands cModel
        [cBatch] 100).1 =
      .ok ⟨([cBatch].map (fun b =>
          subRows (softmaxRows cExp
              (cModel.logits cModel.params cModel.buffers b.inputs))
            (softmaxRows cExp (cModel.logits cModel.params cModel.buffers
              (perturbedInputs (designedSOS cDesign 10 40 100) b))))).flatten,
        ([cBatch].map (fun b =>
          (softmaxRows cExp
            (cModel.logits cModel.params cModel.buffers b.inputs)).map
              argmax)).flatten,
        ([cBatch].map Batch.yTrue).flatten⟩ :=
  ⟨by with_unfolding_all decide, by with_unfolding_all decide,
   by with_unfolding_all decide, by with_unfolding_all decide,
   by with_unfolding_all decide, by with_unfolding_all decide,
   by with_unfolding_all decide, by with_unfolding_all decide,
   by with_unfolding_all decide, by with_unfolding_all decide,
   by with_unfolding_all decide, by with_unfolding_all decide,
   by with_unfolding_all decide,
   c2_importance_is_probability_delta cExp cDesign 0 cBands cModel
     [cBatch] 100 10 40 2
     (by with_unfolding_all decide) (by with_unfolding_all decide)
     (by with_unfolding_all decide) (by with_unfolding_all decide)
     (by with_unfolding_all decide) (by with_unfolding_all decide)
     (by with_unfolding_all decide) (by with_unfolding_all decide)
     (by with_unfolding_all decide) (by with_unfolding_all decide)
     (by with_unfolding_all decide) (by with_unfolding_all decide)
     (by with_unfolding_all decide)⟩

/-- C5: determinism — given the same frozen classifier, the same batch
stream, the same band selection and the same sampling rate, two runs of
`compute_band_importance` return identical results (importance,
predicted-label and true-label arrays, and final model state alike), and
the band-stop filtering step is likewise a pure function of its inputs.
The embedding is a total function with no randomness source, faithfully
mirroring the source, which calls no random number generator. -/
theorem c5_deterministic (e1 e2 : ℚ → ℚ) (D1 D2 : FilterDesigner)
    (cb1 cb2 : Option ℕ) (bands1 bands2 : List (ℚ × ℚ)) (m1 m2 : Model)
    (loader1 loader2 : List Batch) (sr1 sr2 : ℚ)
    (he : e1 = e2) (hD : D1 = D2) (hcb : cb1 = cb2) (hbd : bands1 = bands2)
    (hm : m1 = m2) (hl : loader1 = loader2) (hs : sr1 = sr2) :
    compute_band_importance e1 D1 cb1 bands1 m1 loader1 sr1 =
      compute_band_importance e2 D2 cb2 bands2 m2 loader2 sr2 ∧
    (∀ (sos1 sos2 : List SOSection) (x1 x2 : List ℚ), sos1 = sos2 →
      x1 = x2 → sosfilt sos1 x1 = sosfilt sos2 x2) := by
  subst he hD hcb hbd hm hl hs
  exact ⟨rfl, fun _ _ _ _ hsos hx => by rw [hsos, hx]⟩

/-- Witness for C5: two runs on the same concrete inputs coincide. -/
theorem c5_deterministic_witness :
    cExp = cExp ∧ cDesign = cDesign ∧ (some 0 : Option ℕ) = some 0 ∧
    cBands = cBands ∧ cModel = cModel ∧
    ([cBatch] : List Batch) = [cBatch] ∧ (100 : ℚ) = 100 ∧
    (compute_band_importance cExp cDesign (some 0) cBands cModel
        [cBatch] 100 =
      compute_band_importance cExp cDesign (some 0) cBands cModel
        [cBatch] 100 ∧
    (∀ (sos1 sos2 : List SOSection) (x1 x2 : List ℚ), sos1 = sos2 →
      x1 = x2 → sosfilt sos1 x1 = sosfilt sos2 x2)) :=
  ⟨rfl, rfl, rfl, rfl, rfl, rfl, rfl,
   c5_deterministic cExp cExp cDesign cDesign (some 0) (some 0)
     cBands cBands cModel cModel [cBatch] [cBatch] 100 100
     rfl rfl rfl rfl rfl rfl rfl⟩

/-- C9: throughout one invocation of `FreqBandsExplainer.compute_band_importance`
for a fold, the classifier is never updated. The checkpoint is loaded in
eval mode, the estimator only evaluates the model forward, and the model
state after the procedure equals the state right after loading; moreover
the learnable parameters survive the estimator unchanged for every model
state whatsoever, eval mode or not. -/
theorem c9_classifier_never_updated (e : ℚ → ℚ) (D : FilterDesigner)
    (curBand : Option ℕ) (bands : List (ℚ × ℚ)) (bandNames : List String)
    (ckpt : Model) (loader : List Batch) (sr : ℚ) (fold : ℕ)
    (plotPred plotTrue : Bool) (m : Model) :
    (explainer_compute_band_importance e D curBand bands bandNames ckpt
      loader sr fold plotPred plotTrue).2.1 = loadEval ckpt ∧
    (compute_band_importance e D curBand bands m loader sr).2.params =
      m.params := by
  constructor
  · unfold explainer_compute_band_importance
    simp only
    rw [compute_band_importance_snd_eval e D curBand bands (loadEval ckpt)
      loader sr rfl]
    cases hres : (compute_band_importance e D curBand bands (loadEval ckpt)
        loader sr).1 with
    | error err => rfl
    | ok out =>
      simp only
      cases hp1 : (if plotTrue then
          (plotFile curBand bandNames "true" fold).map (fun f => [f])
        else .ok []) with
      | error err => rfl
      | ok fs1 =>
        cases hp2 : (if plotPred then
            (plotFile curBand bandNames "pred" fold).map (fun f => [f])
          else .ok []) with
        | error err => rfl
        | ok fs2 => rfl
  · exact compute_band_importance_snd_params e D curBand bands m loader sr

theorem cbi_invalid_band (e : ℚ → ℚ) (D : FilterDesigner) (cb : ℕ)
    (bands : List (ℚ × ℚ)) (m : Model) (loader : List Batch) (sr lo hi : ℚ)
    (hb : bands[cb]? = some (lo, hi))
    (hcond : ¬(0 < lo / (sr / 2) ∧ lo / (sr / 2) < 1 ∧
      0 < hi / (sr / 2) ∧ hi / (sr / 2) < 1))
    (hne : loader ≠ []) :
    (compute_band_importance e D (some cb) bands m loader sr).1 =
      .error .invalidBand := by
  obtain ⟨b, rest, rfl⟩ := List.exists_cons_of_ne_nil hne
  have hbut : butter D 4 (lo / (sr / 2)) (hi / (sr / 2)) =
      .error .invalidBand := by
    unfold butter
    rw [if_neg hcond]
  have hpb : (processBatch e D (some cb) bands sr m b).1 =
      .error .invalidBand := by
    unfold processBatch
    simp only [hb, hbut]
  have hrb : (runBatches e D (some cb) bands sr m (b :: rest)).1 =
      .error .invalidBand := by
    unfold runBatches
    simp only
    rw [hpb]
  unfold compute_band_importance
  simp only
  rw [hrb]

/-- C7 counterexample: with the band `[0, 60]` whose edges lie outside
the open interval `(0, 50)` at a 100 Hz sampling rate, run in the actual
module state where `current_band` is unbound, the fold fails with the
undefined-name error, not with the invalid-band error the claim
announces: the filter design step is never reached. -/
theorem c7_counterexample :
    (compute_band_importance cExp cDesign none [((0 : ℚ), 60)] cModel
      [cBatch] 100).1 = .error (.nameError "current_band") ∧
    (compute_band_importance cExp cDesign none [((0 : ℚ), 60)] cModel
      [cBatch] 100).1 ≠ .error .invalidBand :=
  ⟨by with_unfolding_all decide, by with_unfolding_all decide⟩

/-- C7 (amended): provided the ambient variable `current_band` is bound to
an index selecting the band, if the low or high cutoff falls outside the
open interval `(0, Nyquist)` with `Nyquist = sampling_rate / 2`, the
band-stop filter design step fails with the invalid-band error on the
first batch; the error is fatal to the fold — the fold-level call returns
it as its outcome, writes no file, and performs no recovery or retry. -/
theorem c7_invalid_band_fatal (e : ℚ → ℚ) (D : FilterDesigner) (cb : ℕ)
    (bands : List (ℚ × ℚ)) (bandNames : List String) (ckpt : Model)
    (loader : List Batch) (sr : ℚ) (fold : ℕ) (plotPred plotTrue : Bool)
    (lo hi : ℚ)
    (hb : bands[cb]? = some (lo, hi)) (hsr : 0 < sr) (hne : loader ≠ [])
    (hbad : lo ≤ 0 ∨ sr / 2 ≤ lo ∨ hi ≤ 0 ∨ sr / 2 ≤ hi) :
    (explainer_compute_band_importance e D (some cb) bands bandNames ckpt
      loader sr fold plotPred plotTrue).1 = .error .invalidBand ∧
    (explainer_compute_band_importance e D (some cb) bands bandNames ckpt
      loader sr fold plotPred plotTrue).2.2 = [] := by
  have hnyq : 0 < sr / 2 := by positivity
  have hcond : ¬(0 < lo / (sr / 2) ∧ lo / (sr / 2) < 1 ∧
      0 < hi / (sr / 2) ∧ hi / (sr / 2) < 1) := by
    rcases hbad with h | h | h | h
    · rintro ⟨hpos, -, -, -⟩
      rcases div_pos_iff.mp hpos with ⟨hl, -⟩ | ⟨-, hn⟩
      · linarith
      · linarith
    · rintro ⟨-, hlt, -, -⟩
      have h1 : 1 ≤ lo / (sr / 2) := (one_le_div hnyq).mpr h
      linarith
    · rintro ⟨-, -, hpos, -⟩
      rcases div_pos_iff.mp hpos with ⟨hl, -⟩ | ⟨-, hn⟩
      · linarith
      · linarith
    · rintro ⟨-, -, -, hlt⟩
      have h1 : 1 ≤ hi / (sr / 2) := (one_le_div hnyq).mpr h
      linarith
  have hcbi := cbi_invalid_band e D cb bands (loadEval ckpt) loader sr lo hi
    hb hcond hne
  unfold explainer_compute_band_importance
  simp only
  rw [hcbi]
  exact ⟨rfl, rfl⟩

/-- Witness for C7 (amended) at a concrete out-of-range band `[0, 60]`
with Nyquist frequency 50. -/
theorem c7_invalid_band_fatal_witness :
    ([((0 : ℚ), 60)] : List (ℚ × ℚ))[0]? = some (0, 60) ∧ (0 : ℚ) < 100 ∧
    ([cBatch] : List Batch) ≠ [] ∧
    ((0 : ℚ) ≤ 0 ∨ (100 : ℚ) / 2 ≤ 0 ∨ (60 : ℚ) ≤ 0 ∨ (100 : ℚ) / 2 ≤ 60) ∧
    ((explainer_compute_band_importance cExp cDesign (some 0) [((0 : ℚ), 60)]
      ["alpha"] cModel [cBatch] 100 0 false false).1 = .error .invalidBand ∧
    (explainer_compute_band_importance cExp cDesign (some 0) [((0 : ℚ), 60)]
      ["alpha"] cModel [cBatch] 100 0 false false).2.2 = []) :=
  ⟨by with_unfolding_all decide, by with_unfolding_all decide,
   by with_unfolding_all decide, by with_unfolding_all decide,
   c7_invalid_band_fatal cExp cDesign 0 [((0 : ℚ), 60)] ["alpha"] cModel
     [cBatch] 100 0 false false 0 60
     (by with_unfolding_all decide) (by with_unfolding_all decide)
     (by with_unfolding_all decide) (by with_unfolding_all decide)⟩

theorem zipWith_sub_self :
    ∀ (v : List ℚ),
      List.zipWith (fun x y => x - y) v v = List.replicate v.length 0
  | [] => rfl
  | x :: v => by
    simp [List.zipWith_cons_cons, List.replicate_succ, zipWith_sub_self v]

/-- C6 counterexample: with a classifier that ignores its input and always
outputs the uniform distribution over the five classes, run in the actual
module state where `current_band` is unbound, no importance vector is
computed for any sample — the call raises `NameError` — so the claim as
stated fails on the code. -/
theorem c6_counterexample :
    isOkResult (compute_band_importance cExp cDesign none cBands cModel5
      [cBatch] 100) = false ∧
    importanceOf (compute_band_importance cExp cDesign none cBands cModel5
      [cBatch] 100) = [] :=
  ⟨by with_unfolding_all decide, by with_unfolding_all decide⟩

/-- C6 (amended): provided the ambient variable `current_band` is bound to
an index selecting a valid band, if the classifier ignores its input and
always outputs the uniform probability distribution over the five classes
(every logits row it ever emits is `[0.2, 0.2, 0.2, 0.2, 0.2]`), then for
every batch stream the importance vector computed for every sample is
exactly the zero vector: a constant classifier output makes baseline and
perturbed softmax probabilities coincide, so their difference vanishes. -/
theorem c6_constant_classifier_zero_importance (e : ℚ → ℚ)
    (D : FilterDesigner) (cb : ℕ) (bands : List (ℚ × ℚ)) (m : Model)
    (loader : List Batch) (sr lo hi : ℚ)
    (hm : m.training = false) (hb : bands[cb]? = some (lo, hi))
    (h1 : 0 < lo / (sr / 2)) (h2 : lo / (sr / 2) < 1)
    (h3 : 0 < hi / (sr / 2)) (h4 : hi / (sr / 2) < 1)
    (hne : loader ≠ [])
    (hconst : ∀ p bu x, ∀ r ∈ m.logits p bu x,
      r = List.replicate 5 (1 / 5))
    (hc1 : ∀ b ∈ loader,
      (m.logits m.params m.buffers b.inputs).length = b.yTrue.length)
    (hc2 : ∀ b ∈ loader,
      (m.logits m.params m.buffers
        (perturbedInputs (designedSOS D lo hi sr) b)).length = b.yTrue.length)
    (hnb : ∀ b ∈ loader, b.yTrue ≠ []) :
    ∀ row ∈ importanceOf
      (compute_band_importance e D (some cb) bands m loader sr),
      row = List.replicate 5 0 := by
  have hw1 : ∀ b ∈ loader,
      ∀ r ∈ m.logits m.params m.buffers b.inputs, r.length = 5 := by
    intro b _ r hr
    rw [hconst m.params m.buffers b.inputs r hr, List.length_replicate]
  have hw2 : ∀ b ∈ loader,
      ∀ r ∈ m.logits m.params m.buffers
        (perturbedInputs (designedSOS D lo hi sr) b), r.length = 5 := by
    intro b _ r hr
    rw [hconst m.params m.buffers _ r hr, List.length_replicate]
  have hmaster := compute_band_importance_ok e D cb bands m loader sr lo hi 5
    hm hb h1 h2 h3 h4 hne (by omega) hc1 hc2 hw1 hw2 hnb
  intro row hrow
  rw [hmaster] at hrow
  simp only [importanceOf] at hrow
  obtain ⟨rl, hrl, hrow2⟩ := List.mem_flatten.mp hrow
  obtain ⟨b, hbm, rfl⟩ := List.mem_map.mp hrl
  unfold impRowsOf subRows at hrow2
  obtain ⟨p, hp, q, hq, rfl⟩ := mem_zipWith hrow2
  unfold baselineRows softmaxRows at hp
  obtain ⟨r1, hr1, rfl⟩ := List.mem_map.mp hp
  unfold perturbedRows softmaxRows at hq
  obtain ⟨r2, hr2, rfl⟩ := List.mem_map.mp hq
  rw [hconst m.params m.buffers b.inputs r1 hr1,
    hconst m.params m.buffers _ r2 hr2]
  rw [zipWith_sub_self, softmax_length, List.length_replicate]

/-- Witness for C6 (amended): a concrete constant uniform classifier on a
one-batch stream yields exactly one zero importance row. -/
theorem c6_constant_classifier_zero_importance_witness :
    cModel5.training = false ∧
    cBands[0]? = some (10, 40) ∧
    (0 : ℚ) < 10 / (100 / 2) ∧ (10 : ℚ) / (100 / 2) < 1 ∧
    (0 : ℚ) < 40 / (100 / 2) ∧ (40 : ℚ) / (100 / 2) < 1 ∧
    ([cBatch] : List Batch) ≠ [] ∧
    (∀ p bu x, ∀ r ∈ cModel5.logits p bu x,
      r = List.replicate 5 (1 / 5)) ∧
    (∀ b ∈ [cBatch],
      (cModel5.logits cModel5.params cModel5.buffers b.inputs).length =
        b.yTrue.length) ∧
    (∀ b ∈ [cBatch],
      (cModel5.logits cModel5.params cModel5.buffers
        (perturbedInputs (designedSOS cDesign 10 40 100) b)).length =
          b.yTrue.length) ∧
    (∀ b ∈ [cBatch], b.yTrue ≠ []) ∧
    (∀ row ∈ importanceOf
      (compute_band_importance cExp cDesign (some 0) cBands cModel5
        [cBatch] 100),
      row = List.replicate 5 0) :=
  ⟨by with_unfolding_all decide, by with_unfolding_all decide,
   by with_unfolding_all decide, by with_unfolding_all decide,
   by with_unfolding_all decide, by with_unfolding_all decide,
   by with_unfolding_all decide,
   fun _ _ _ r hr => List.mem_singleton.mp hr,
   by with_unfolding_all decide, by with_unfolding_all decide,
   by with_unfolding_all decide,
   c6_constant_classifier_zero_importance cExp cDesign 0 cBands cModel5
     [cBatch] 100 10 40
     (by with_unfolding_all decide) (by with_unfolding_all decide)
     (by with_unfolding_all decide) (by with_unfolding_all decide)
     (by with_unfolding_all decide) (by with_unfolding_all decide)
     (by with_unfolding_all decide)
     (fun _ _ _ r hr => List.mem_singleton.mp hr)
     (by with_unfolding_all decide) (by with_unfolding_all decide)
     (by with_unfolding_all decide)⟩

/-- C8 counterexample: on a concrete batch, run in the actual module state
where `current_band` is unbound, `compute_band_importance` raises before
the flatten-filter-reshape stage is ever executed, so the claim as stated
fails on the code. -/
theorem c8_counterexample :
    isOkResult (compute_band_importance cExp cDesign none [((5 : ℚ), 20)]
      cModel [cBatch2] 100) = false ∧
    (compute_band_importance cExp cDesign none [((5 : ℚ), 20)] cModel
      [cBatch2] 100).1 = .error (.nameError "current_band") :=
  ⟨by with_unfolding_all decide, by with_unfolding_all decide⟩

/-- C8 (amended): in the filtering stage that `compute_band_importance`
runs once the band lookup succeeds (embedded by `perturbedInputs`), for a
batch of shape `(batch, seq_len, 1, n_samples)` each sample i of the
`(-1, seq_len * n_samples)` reshape — the flattened (sequence-length ×
sample-count) waveform of that sample, of length `seq_len * n_samples` —
is replaced by the second-order-sections filter designed for the band
applied to the whole flattened waveform at once (so adjacent 30-second
windows are filtered as one concatenated signal), and the buffer length
is preserved, so it reshapes back to the original
`(batch, seq_len, n_channels, n_samples)` shape. -/
theorem c8_flatten_filter_reshape (D : FilterDesigner) (lo hi sr : ℚ)
    (b : Batch)
    (hshape : b.inputs.length =
      b.batchSize * b.seqLen * b.nChannels * b.nSamples)
    (hc : b.nChannels = 1) :
    (perturbedInputs (designedSOS D lo hi sr) b).length =
      b.inputs.length ∧
    ∀ i < b.batchSize,
      getChunk (b.seqLen * b.nSamples) i
          (perturbedInputs (designedSOS D lo hi sr) b) =
        sosfilt (designedSOS D lo hi sr)
          (getChunk (b.seqLen * b.nSamples) i b.inputs) := by
  have hlen : b.batchSize * (b.seqLen * b.nSamples) = b.inputs.length := by
    rw [hshape, hc]
    ring
  have hle : b.batchSize * (b.seqLen * b.nSamples) ≤ b.inputs.length :=
    le_of_eq hlen
  have hclosed := filterLoop_closed (designedSOS D lo hi sr)
    (b.seqLen * b.nSamples) b.batchSize b.inputs hle
  have hwid : ∀ r ∈ (List.range b.batchSize).map
      (fun i => sosfilt (designedSOS D lo hi sr)
        (getChunk (b.seqLen * b.nSamples) i b.inputs)),
      r.length = b.seqLen * b.nSamples := by
    intro r hr
    obtain ⟨i, hi, rfl⟩ := List.mem_map.mp hr
    have hi2 : i < b.batchSize := List.mem_range.mp hi
    have hstep : (i + 1) * (b.seqLen * b.nSamples) ≤
        b.batchSize * (b.seqLen * b.nSamples) :=
      Nat.mul_le_mul_right _ hi2
    rw [Nat.succ_mul] at hstep
    exact (sosfilt_length _ _).trans
      (getChunk_length _ _ _ (le_trans hstep hle))
  constructor
  · unfold perturbedInputs
    rw [hclosed, List.length_append,
      flatten_length_uniform (b.seqLen * b.nSamples) _ hwid,
      List.length_map, List.length_range, List.length_drop]
    exact Nat.add_sub_cancel' hle
  · intro i hilt
    unfold perturbedInputs
    rw [hclosed, List.drop_eq_nil_of_le (le_of_eq hlen.symm),
      List.append_nil]
    have hib : i < ((List.range b.batchSize).map
        (fun j => sosfilt (designedSOS D lo hi sr)
          (getChunk (b.seqLen * b.nSamples) j b.inputs))).length := by
      rw [List.length_map, List.length_range]
      exact hilt
    rw [getChunk_flatten_uniform _ _ i hwid hib]
    simp

/-- Witness for C8 (amended) on a concrete `(1, 1, 1, 2)` batch. -/
theorem c8_flatten_filter_reshape_witness :
    cBatch.inputs.length =
      cBatch.batchSize * cBatch.seqLen * cBatch.nChannels *
        cBatch.nSamples ∧
    cBatch.nChannels = 1 ∧
    ((perturbedInputs (designedSOS cDesign 10 40 100) cBatch).length =
      cBatch.inputs.length ∧
    ∀ i < cBatch.batchSize,
      getChunk (cBatch.seqLen * cBatch.nSamples) i
          (perturbedInputs (designedSOS cDesign 10 40 100) cBatch) =
        sosfilt (designedSOS cDesign 10 40 100)
          (getChunk (cBatch.seqLen * cBatch.nSamples) i cBatch.inputs)) :=
  ⟨by with_unfolding_all decide, by with_unfolding_all decide,
   c8_flatten_filter_reshape cDesign 10 40 100 cBatch
     (by with_unfolding_all decide) (by with_unfolding_all decide)⟩

/-- C10: since the baseline and perturbed probability vectors are each
post-softmax distributions summing to one, every importance row of a
successful run of `compute_band_importance` sums to exactly zero and
every one of its components lies in the interval `[-1, 1]`. The strict
positivity of the exponential, a property of the real softmax, is the
hypothesis `hpos` on the abstract exponential `e`; the shape hypotheses
say that the logits are proper `(n, K)` tensors, which the tensor types
of the source guarantee. -/
theorem c10_importance_rows_sum_zero (e : ℚ → ℚ) (D : FilterDesigner)
    (cb : ℕ) (bands : List (ℚ × ℚ)) (m : Model) (loader : List Batch)
    (sr lo hi : ℚ) (K : ℕ)
    (hpos : ∀ x, 0 < e x)
    (hm : m.training = false) (hb : bands[cb]? = some (lo, hi))
    (h1 : 0 < lo / (sr / 2)) (h2 : lo / (sr / 2) < 1)
    (h3 : 0 < hi / (sr / 2)) (h4 : hi / (sr / 2) < 1)
    (hne : loader ≠ []) (hK : 0 < K)
    (hc1 : ∀ b ∈ loader,
      (m.logits m.params m.buffers b.inputs).length = b.yTrue.length)
    (hc2 : ∀ b ∈ loader,
      (m.logits m.params m.buffers
        (perturbedInputs (designedSOS D lo hi sr) b)).length = b.yTrue.length)
    (hw1 : ∀ b ∈ loader,
      ∀ r ∈ m.logits m.params m.buffers b.inputs, r.length = K)
    (hw2 : ∀ b ∈ loader,
      ∀ r ∈ m.logits m.params m.buffers
        (perturbedInputs (designedSOS D lo hi sr) b), r.length = K)
    (hnb : ∀ b ∈ loader, b.yTrue ≠ []) :
    ∀ row ∈ importanceOf
      (compute_band_importance e D (some cb) bands m loader sr),
      row.sum = 0 ∧ ∀ v ∈ row, -1 ≤ v ∧ v ≤ 1 := by
  have hmaster := compute_band_importance_ok e D cb bands m loader sr lo hi K
    hm hb h1 h2 h3 h4 hne hK hc1 hc2 hw1 hw2 hnb
  intro row hrow
  rw [hmaster] at hrow
  simp only [importanceOf] at hrow
  obtain ⟨rl, hrl, hrow2⟩ := List.mem_flatten.mp hrow
  obtain ⟨b, hbm, rfl⟩ := List.mem_map.mp hrl
  unfold impRowsOf subRows at hrow2
  obtain ⟨p, hp, q, hq, rfl⟩ := mem_zipWith hrow2
  unfold baselineRows softmaxRows at hp
  obtain ⟨r1, hr1, rfl⟩ := List.mem_map.mp hp
  unfold perturbedRows softmaxRows at hq
  obtain ⟨r2, hr2, rfl⟩ := List.mem_map.mp hq
  have hr1K : r1.length = K := hw1 b hbm r1 hr1
  have hr2K : r2.length = K := hw2 b hbm r2 hr2
  have hr1ne : r1 ≠ [] := by
    intro hnil
    rw [hnil] at hr1K
    simp at hr1K
    omega
  have hr2ne : r2 ≠ [] := by
    intro hnil
    rw [hnil] at hr2K
    simp at hr2K
    omega
  constructor
  · rw [sum_zipWith_sub _ _
      (by rw [softmax_length, softmax_length, hr1K, hr2K]),
      softmax_sum e r1 hpos hr1ne, softmax_sum e r2 hpos hr2ne]
    ring
  · intro v hv
    obtain ⟨a, ha, c, hc, rfl⟩ := mem_zipWith hv
    have hba := softmax_mem_bounds e r1 a hpos ha
    have hbc := softmax_mem_bounds e r2 c hpos hc
    constructor <;> linarith [hba.1, hba.2, hbc.1, hbc.2]

/-- Witness for C10 at a concrete two-class model and a strictly positive
concrete exponential. -/
theorem c10_importance_rows_sum_zero_witness :
    (∀ x, 0 < cExp x) ∧
    cModel.training = false ∧
    cBands[0]? = some (10, 40) ∧
    (0 : ℚ) < 10 / (100 / 2) ∧ (10 : ℚ) / (100 / 2) < 1 ∧
    (0 : ℚ) < 40 / (100 / 2) ∧ (40 : ℚ) / (100 / 2) < 1 ∧
    ([cBatch] : List Batch) ≠ [] ∧ 0 < 2 ∧
    (∀ b ∈ [cBatch],
      (cModel.logits cModel.params cModel.buffers b.inputs).length =
        b.yTrue.length) ∧
    (∀ b ∈ [cBatch],
      (cModel.logits cModel.params cModel.buffers
        (perturbedInputs (designedSOS cDesign 10 40 100) b)).length =
          b.yTrue.length) ∧
    (∀ b ∈ [cBatch],
      ∀ r ∈ cModel.logits cModel.params cModel.buffers b.inputs,
        r.length = 2) ∧
    (∀ b ∈ [cBatch],
      ∀ r ∈ cModel.logits cModel.params cModel.buffers
        (perturbedInputs (designedSOS cDesign 10 40 100) b), r.length = 2) ∧
    (∀ b ∈ [cBatch], b.yTrue ≠ []) ∧
    (∀ row ∈ importanceOf
      (compute_band_importance cExp cDesign (some 0) cBands cModel
        [cBatch] 100),
      row.sum = 0 ∧ ∀ v ∈ row, -1 ≤ v ∧ v ≤ 1) :=
  ⟨fun _ => one_pos,
   by with_unfolding_all decide, by with_unfolding_all decide,
   by with_unfolding_all decide, by with_unfolding_all decide,
   by with_unfolding_all decide, by with_unfolding_all decide,
   by with_unfolding_all decide, by with_unfolding_all decide,
   by with_unfolding_all decide, by with_unfolding_all decide,
   by with_unfolding_all decide, by with_unfolding_all decide,
   by with_unfolding_all decide,
   c10_importance_rows_sum_zero cExp cDesign 0 cBands cModel [cBatch] 100
     10 40 2 (fun _ => one_pos)
     (by with_unfolding_all decide) (by with_unfolding_all decide)
     (by with_unfolding_all decide) (by with_unfolding_all decide)
     (by with_unfolding_all decide) (by with_unfolding_all decide)
     (by with_unfolding_all decide) (by with_unfolding_all decide)
     (by with_unfolding_all decide) (by with_unfolding_all decide)
     (by with_unfolding_all decide) (by with_unfolding_all decide)
     (by with_unfolding_all decide)⟩

/-- C4: the combined per-sample table and the optional CSV persistence the
claim describes do not exist in the code: the block that would concatenate
the per-fold tables into the returned frame and the block that would write
`band=<band_name>_importance.csv` when `save_csv` is set are commented out
in the source (lines 205-215), so `FreqBandsExplainer.explain` returns
`pd.DataFrame([])` — an empty table with no columns — and writes no file,
even on a fully successful run over one fold with `save_csv = true`. -/
theorem c4_explain_returns_empty_frame :
    explainer_explain cExp cDesign (some 0) cBands ["alpha"]
      [⟨0, cModel, [cBatch]⟩] 100 true false false =
      (.ok ⟨[], []⟩, []) := by
  with_unfolding_all decide
